import Mathlib

/-!
Shallow embedding of the Uptime-Sentinel monitoring core
(`server/routes/websites.js` concatenation: worker + Website model, and
`server/controllers/websiteController.js`).

Times are milliseconds since epoch, modelled as `Nat`.  MongoDB optional
date fields are three-valued (absent / null / value) because the worker's
queries distinguish `$exists: false` from a stored `null` (`$lte` uses
type bracketing and never matches `null`).
-/

/-- Mongo optional field: absent from the document, stored `null`, or a value. -/
inductive MField (α : Type) where
  | absent : MField α
  | null : MField α
  | val : α → MField α
deriving DecidableEq, Repr

namespace MField

/-- JS truthiness of the field (`!this.stopPingUntil` is true for absent/null). -/
def isSet {α : Type} : MField α → Bool
  | val _ => true
  | _ => false

/-- Mongo `{ field: { $lte: now } }`: type bracketing, `null` never matches. -/
def lteMatches : MField Nat → Nat → Bool
  | val t, now => t ≤ now
  | _, _ => false

/-- Mongo `{ field: { $exists: false } }`: matches only a truly absent field. -/
def existsFalse {α : Type} : MField α → Bool
  | absent => true
  | _ => false

end MField

/-- Site status enum of the Website schema. -/
inductive SiteStatus where
  | PENDING : SiteStatus
  | UP : SiteStatus
  | DOWN : SiteStatus
deriving DecidableEq, Repr

/-- One entry of `pingHistory` (pingHistorySchema). -/
structure PingEntry where
  timestamp : Nat
  statusCode : Nat
  duration : Nat
deriving DecidableEq, Repr

/-- Configuration drawn from environment variables (milliseconds). -/
structure Config where
  /-- PING_INTERVAL_MINUTES * 60 * 1000 (default 5 minutes). -/
  pingInterval : Nat
  /-- DOWNTIME_MONITORING_HOURS * 3600000 (default 12 hours). -/
  downtimeWindow : Nat
  /-- PAUSE_MONITORING_HOURS * 3600000 (default 24 hours). -/
  pauseWindow : Nat
deriving DecidableEq, Repr

/-- The monitored-site document (websiteSchema). -/
structure Website where
  url : String
  name : String
  status : SiteStatus
  lastChecked : MField Nat
  consecutiveFailures : Nat
  emailNotificationSent : Bool
  nextPingTime : MField Nat
  isTemporarilyStopped : Bool
  stopPingUntil : MField Nat
  pingHistory : List PingEntry
deriving DecidableEq, Repr

/-- A freshly registered website (schema defaults: status PENDING,
`nextPingTime` = now + 5 minutes, `stopPingUntil` null, empty history). -/
def mkWebsite (url name : String) (now : Nat) : Website :=
  { url := url
    name := name
    status := SiteStatus.PENDING
    lastChecked := MField.null
    consecutiveFailures := 0
    emailNotificationSent := false
    nextPingTime := MField.val (now + 5 * 60 * 1000)
    isTemporarilyStopped := false
    stopPingUntil := MField.null
    pingHistory := [] }

/-- History cap applied inside `addPingResult`: `slice(-100)` keeps the
latest 100 entries whenever the list exceeds 100. -/
def capPingHistory (l : List PingEntry) : List PingEntry :=
  if l.length > 100 then l.drop (l.length - 100) else l

/-- The `pre('save')` middleware: same `slice(-100)` cap. -/
def preSaveCap (w : Website) : Website :=
  if w.pingHistory.length > 100 then
    { w with pingHistory := w.pingHistory.drop (w.pingHistory.length - 100) }
  else w

/-- Instance method `websiteSchema.methods.addPingResult(statusCode, duration)`,
with the wall clock `now` made explicit.  Appends the capped history entry,
derives `status` from the status code, and performs the per-site scheduling:
healthy resets the downtime machinery; unhealthy either opens the downtime
window (`stopPingUntil` falsy), keeps the normal cadence while inside it, or
pauses monitoring for `pauseWindow` once the window has passed. -/
def Website.addPingResult (w : Website) (statusCode duration now : Nat)
    (cfg : Config) : Website :=
  let w1 := { w with
    pingHistory := capPingHistory (w.pingHistory ++ [PingEntry.mk now statusCode duration]) }
  let isUp : Bool := 200 ≤ statusCode && statusCode < 400
  let w2 := { w1 with
    status := if isUp then SiteStatus.UP else SiteStatus.DOWN
    lastChecked := MField.val now }
  if isUp then
    { w2 with
      nextPingTime := MField.val (now + cfg.pingInterval)
      isTemporarilyStopped := false
      stopPingUntil := MField.null }
  else
    match w2.stopPingUntil with
    | MField.val d =>
      if now < d then
        { w2 with nextPingTime := MField.val (now + cfg.pingInterval) }
      else
        { w2 with
          isTemporarilyStopped := true
          nextPingTime := MField.val (now + cfg.pauseWindow) }
    | _ =>
      { w2 with
        stopPingUntil := MField.val (now + cfg.downtimeWindow)
        nextPingTime := MField.val (now + cfg.pingInterval) }

/-- Decides whether `pat` occurs at the head of `hay`. -/
def charsLeadWith : List Char → List Char → Bool
  | [], _ => true
  | _ :: _, [] => false
  | a :: pat, b :: hay => a == b && charsLeadWith pat hay

/-- Decides whether `pat` occurs contiguously anywhere in `hay`. -/
def charsContain (hay pat : List Char) : Bool :=
  match hay with
  | [] => pat.isEmpty
  | _ :: rest => charsLeadWith pat hay || charsContain rest pat

/-- JS `String.prototype.includes`. -/
def jsIncludes (s pat : String) : Bool := charsContain s.data pat.data

/-- JS `String.prototype.toLowerCase` (ASCII range, as used on page text). -/
def lowerStr (s : String) : String := String.mk (s.data.map Char.toLower)

/-- Health classification of a received response (worker lines 189-209):
candidate-healthy statuses are [200,400); for URLs containing `/health` or
`/status` the lowercased body is searched for positive tokens, with a final
disjunct accepting any [200,300) status outright. -/
def classifyResponse (url : String) (statusCode : Nat) (pageText : String) : Bool :=
  if 200 ≤ statusCode && statusCode < 400 then
    if jsIncludes url "/health" || jsIncludes url "/status" then
      let t := lowerStr pageText
      jsIncludes t "ok" || jsIncludes t "success" || jsIncludes t "healthy" ||
        jsIncludes t "up" || (200 ≤ statusCode && statusCode < 300)
    else
      200 ≤ statusCode && statusCode < 400
  else false

/-- Events observable from one `pingWebsite` call: whether a downtime alert
delivery was attempted and whether a recovery notification was sent. -/
structure PingEvents where
  alertAttempted : Bool
  recoverySent : Bool
deriving DecidableEq, Repr

namespace PingWorker

/-- Failure path of `pingWebsite` (its catch block): increment
`consecutiveFailures`, record a status-0 result with the elapsed duration,
then attempt the downtime alert when at least 3 consecutive failures have
accumulated and no alert was delivered for the current incident; the flag is
set only when the delivery (`deliveryOk`) succeeds. -/
def pingFailure (w : Website) (deliveryOk : Bool) (now duration : Nat)
    (cfg : Config) : Website × PingEvents :=
  let w1 := { w with consecutiveFailures := w.consecutiveFailures + 1 }
  let w2 := w1.addPingResult 0 duration now cfg
  if 3 ≤ w2.consecutiveFailures && ! w2.emailNotificationSent then
    if deliveryOk then
      ({ w2 with emailNotificationSent := true }, ⟨true, false⟩)
    else (w2, ⟨true, false⟩)
  else (w2, ⟨false, false⟩)

/-- One probe evaluation (`PingWorker.pingWebsite`).  `probe` is the
navigation outcome: `none` when navigation threw (network error / timeout),
`some (sc, text)` a response with its body text.  An unhealthy
classification throws into the same catch block as a navigation failure. -/
def pingWebsite (w : Website) (probe : Option (Nat × String))
    (deliveryOk : Bool) (now duration : Nat) (cfg : Config) :
    Website × PingEvents :=
  match probe with
  | some (sc, text) =>
    if classifyResponse w.url sc text then
      let wasDown : Bool := 3 ≤ w.consecutiveFailures
      let w1 := { w with consecutiveFailures := 0, emailNotificationSent := false }
      let w2 := w1.addPingResult sc duration now cfg
      (w2, ⟨false, wasDown⟩)
    else
      pingFailure w deliveryOk now duration cfg
  | none => pingFailure w deliveryOk now duration cfg

end PingWorker

/-- Due-for-check query of `runPingCycle`: `nextPingTime` elapsed or absent,
and not temporarily stopped. -/
def dueForCheck (w : Website) (now : Nat) : Bool :=
  (w.nextPingTime.lteMatches now || w.nextPingTime.existsFalse) &&
    ! w.isTemporarilyStopped

/-- Due-for-resume query of `checkAndResumeStoppedWebsites`:
temporarily stopped, and `stopPingUntil` elapsed or absent. -/
def dueForResume (w : Website) (now : Nat) : Bool :=
  w.isTemporarilyStopped &&
    (w.stopPingUntil.lteMatches now || w.stopPingUntil.existsFalse)

/-- Per-site body of `checkAndResumeStoppedWebsites`: clear the stop flag,
null `stopPingUntil`, and schedule the next ping one interval from now. -/
def resumeStoppedWebsite (w : Website) (now : Nat) (cfg : Config) : Website :=
  { w with
    isTemporarilyStopped := false
    stopPingUntil := MField.null
    nextPingTime := MField.val (now + cfg.pingInterval) }

/-- Controller `pauseWebsite`: manual pause sets the stop flag and stores
`null` in `stopPingUntil` (indefinite pause until manually resumed). -/
def pauseWebsiteStep (w : Website) : Website :=
  { w with isTemporarilyStopped := true, stopPingUntil := MField.null }

/-- Controller `resumeWebsite`: manual resume clears the stop flag, nulls
`stopPingUntil` and makes the site due immediately. -/
def resumeWebsiteStep (w : Website) (now : Nat) : Website :=
  { w with
    isTemporarilyStopped := false
    stopPingUntil := MField.null
    nextPingTime := MField.val now }

/-- Default configuration: 5-minute interval, 12-hour downtime window,
24-hour pause. -/
def cfg0 : Config :=
  { pingInterval := 5 * 60 * 1000
    downtimeWindow := 12 * 60 * 60 * 1000
    pauseWindow := 24 * 60 * 60 * 1000 }

/-- One scheduler action on a single site, combining the two disjoint query
sets of `runPingCycle`: a due-for-check site is probed, a due-for-resume site
is resumed, any other site is untouched. -/
def tickSite (w : Website) (now : Nat) (probe : Option (Nat × String))
    (deliveryOk : Bool) (duration : Nat) (cfg : Config) : Website :=
  if dueForCheck w now then
    (PingWorker.pingWebsite w probe deliveryOk now duration cfg).1
  else if dueForResume w now then
    resumeStoppedWebsite w now cfg
  else w

/-- Input of one scheduler tick as seen by a single site: evaluation time,
probe outcome, delivery outcome, elapsed duration. -/
structure TickInput where
  now : Nat
  probe : Option (Nat × String)
  deliveryOk : Bool
  duration : Nat

/-- Iterated scheduler ticks on a single site. -/
def tickSiteMany (w : Website) (ticks : List TickInput) (cfg : Config) : Website :=
  match ticks with
  | [] => w
  | t :: rest => tickSiteMany (tickSite w t.now t.probe t.deliveryOk t.duration cfg) rest cfg

/-- Worker-level state relevant to the single-flight policy. -/
structure WorkerState where
  isRunning : Bool
  totalPingsCompleted : Nat
deriving DecidableEq, Repr

/-- One probe job of a ping cycle: the due site together with its probe,
delivery, timing inputs. -/
structure PingJob where
  site : Website
  probe : Option (Nat × String)
  deliveryOk : Bool
  now : Nat
  duration : Nat

/-- Sequential processing of the due-for-check sites inside one cycle: each
site is evaluated by `pingWebsite`, whose catch block absorbs any per-probe
failure, so every job yields a result and the loop never aborts early. -/
def processDueSites (jobs : List PingJob) (cfg : Config) : List (Website × PingEvents) :=
  jobs.map fun j => PingWorker.pingWebsite j.site j.probe j.deliveryOk j.now j.duration cfg

/-- The `runPingCycle` guard and body: a cycle that finds the worker already
running returns at once (no due-set query, no probes); otherwise the running
flag is raised, the due-set query result (`Except` for a thrown query) is
processed, and the flag is lowered in the `finally` block on every path.
Returns the worker state and the number of probes executed. -/
def runPingCycle (wk : WorkerState) (query : Except String (List PingJob))
    (cfg : Config) : WorkerState × Nat :=
  if wk.isRunning then (wk, 0)
  else
    let wk1 : WorkerState := { wk with isRunning := true }
    match query with
    | Except.error _ => ({ wk1 with isRunning := false }, 0)
    | Except.ok jobs =>
      let n := (processDueSites jobs cfg).length
      ({ wk1 with isRunning := false
                  totalPingsCompleted := wk1.totalPingsCompleted + n }, n)

/-- Repeated unhealthy evaluations of one site (one incident prefix):
each step goes through the catch block of `pingWebsite` (probe `none`), and
the number of downtime-alert delivery attempts is accumulated. -/
def unhealthyRun (w : Website) (steps : List (Bool × Nat × Nat)) (cfg : Config) :
    Website × Nat :=
  match steps with
  | [] => (w, 0)
  | (dOk, now, dur) :: rest =>
    let r := PingWorker.pingWebsite w none dOk now dur cfg
    let f := unhealthyRun r.1 rest cfg
    (f.1, (if r.2.alertAttempted then 1 else 0) + f.2)

/-- Fold of `addPingResult` over a list of (statusCode, duration, timestamp)
triples, as the worker does over successive evaluations of one site. -/
def insertResults (w : Website) (rs : List (Nat × Nat × Nat)) (cfg : Config) : Website :=
  match rs with
  | [] => w
  | (sc, dur, t) :: rest => insertResults (w.addPingResult sc dur t cfg) rest cfg

/-- Concrete trajectory for C4: a fresh site, one unhealthy probe at time
1000 (opens the window), then one unhealthy probe at the deadline. -/
def siteAfterSuspension : Website :=
  ((mkWebsite "https://a.example" "A" 0).addPingResult 0 100 1000 cfg0).addPingResult
    0 100 (1000 + cfg0.downtimeWindow) cfg0

/-- Concrete suspended site for C5: stopped with `stopPingUntil` absent. -/
def stoppedSiteB : Website :=
  { mkWebsite "https://b.example" "B" 0 with
    isTemporarilyStopped := true
    stopPingUntil := MField.absent }

/-- Concrete five-step trace for C3: healthy, three unhealthy, healthy, with
successful alert delivery, 5 minutes apart. -/
def c3r1 : Website × PingEvents :=
  PingWorker.pingWebsite (mkWebsite "https://c.example" "C" 0)
    (some (200, "hello world")) true 0 40 cfg0

/-- Second step of the C3 trace (first unhealthy probe). -/
def c3r2 : Website × PingEvents :=
  PingWorker.pingWebsite c3r1.1 none true 300000 40 cfg0

/-- Third step of the C3 trace (second unhealthy probe). -/
def c3r3 : Website × PingEvents :=
  PingWorker.pingWebsite c3r2.1 none true 600000 40 cfg0

/-- Fourth step of the C3 trace (third unhealthy probe). -/
def c3r4 : Website × PingEvents :=
  PingWorker.pingWebsite c3r3.1 none true 900000 40 cfg0

/-- Fifth step of the C3 trace (healthy probe again). -/
def c3r5 : Website × PingEvents :=
  PingWorker.pingWebsite c3r4.1 (some (200, "hello world")) true 1200000 40 cfg0

/-- Concrete health-endpoint site for C6. -/
def healthSiteD : Website := mkWebsite "https://d.example/health" "D" 0

/-!  Helper lemmas about `addPingResult`. -/

theorem capPingHistory_eq_drop (l : List PingEntry) :
    capPingHistory l = l.drop (l.length - 100) := by
  unfold capPingHistory
  split
  · rfl
  · have h : l.length - 100 = 0 := by omega
    rw [h, List.drop_zero]

theorem length_capPingHistory (l : List PingEntry) :
    (capPingHistory l).length = min l.length 100 := by
  rw [capPingHistory_eq_drop, List.length_drop]
  omega

theorem addPingResult_pingHistory (w : Website) (sc dur now : Nat) (cfg : Config) :
    (w.addPingResult sc dur now cfg).pingHistory =
      capPingHistory (w.pingHistory ++ [PingEntry.mk now sc dur]) := by
  unfold Website.addPingResult
  dsimp only
  split
  · rfl
  · split
    · split <;> rfl
    · rfl

theorem addPingResult_consecutiveFailures (w : Website) (sc dur now : Nat) (cfg : Config) :
    (w.addPingResult sc dur now cfg).consecutiveFailures = w.consecutiveFailures := by
  unfold Website.addPingResult
  dsimp only
  split
  · rfl
  · split
    · split <;> rfl
    · rfl

theorem addPingResult_emailNotificationSent (w : Website) (sc dur now : Nat) (cfg : Config) :
    (w.addPingResult sc dur now cfg).emailNotificationSent = w.emailNotificationSent := by
  unfold Website.addPingResult
  dsimp only
  split
  · rfl
  · split
    · split <;> rfl
    · rfl

theorem addPingResult_isUp_false (sc : Nat) (hsc : ¬ (200 ≤ sc ∧ sc < 400)) :
    (200 ≤ sc && sc < 400) = false := by
  by_cases h1 : 200 ≤ sc <;> by_cases h2 : sc < 400 <;> simp [h1, h2] at hsc ⊢

/-- C1: an unhealthy result with `stopPingUntil` unset opens the downtime
window (deadline = now + window, next check after one normal interval, no
suspension); an unhealthy result strictly before the deadline keeps the
normal cadence without suspending; an unhealthy result at or after the
deadline suspends the site and schedules it `pauseWindow` later; and a
suspended site is never matched by the due-for-check query. -/
theorem addPingResult_downtime_lifecycle (w : Website) (sc dur now : Nat)
    (cfg : Config) (hsc : ¬ (200 ≤ sc ∧ sc < 400)) :
    (w.stopPingUntil.isSet = false →
      (w.addPingResult sc dur now cfg).stopPingUntil
          = MField.val (now + cfg.downtimeWindow) ∧
      (w.addPingResult sc dur now cfg).nextPingTime
          = MField.val (now + cfg.pingInterval) ∧
      (w.addPingResult sc dur now cfg).isTemporarilyStopped
          = w.isTemporarilyStopped) ∧
    (∀ dl, w.stopPingUntil = MField.val dl → now < dl →
      (w.addPingResult sc dur now cfg).nextPingTime
          = MField.val (now + cfg.pingInterval) ∧
      (w.addPingResult sc dur now cfg).isTemporarilyStopped
          = w.isTemporarilyStopped) ∧
    (∀ dl, w.stopPingUntil = MField.val dl → dl ≤ now →
      (w.addPingResult sc dur now cfg).isTemporarilyStopped = true ∧
      (w.addPingResult sc dur now cfg).nextPingTime
          = MField.val (now + cfg.pauseWindow)) ∧
    (∀ (v : Website) (t : Nat), v.isTemporarilyStopped = true →
      dueForCheck v t = false) := by
  have hUp := addPingResult_isUp_false sc hsc
  refine ⟨?_, ?_, ?_, ?_⟩
  · intro hset
    unfold Website.addPingResult
    dsimp only
    rw [hUp]
    cases h : w.stopPingUntil with
    | val d => rw [h] at hset; simp [MField.isSet] at hset
    | absent => simp
    | null => simp
  · intro dl hdl hlt
    unfold Website.addPingResult
    dsimp only
    rw [hUp, hdl]
    simp [hlt]
  · intro dl hdl hge
    unfold Website.addPingResult
    dsimp only
    rw [hUp, hdl]
    simp [Nat.not_lt.mpr hge]
  · intro v t hstop
    simp [dueForCheck, hstop]

/-- C1 witness: the first unhealthy probe of a fresh site at time 1000 opens
the window without suspending. -/
theorem addPingResult_downtime_lifecycle_witness :
    ((mkWebsite "https://a.example" "A" 0).addPingResult 503 80 1000 cfg0).stopPingUntil
        = MField.val (1000 + cfg0.downtimeWindow) ∧
    ((mkWebsite "https://a.example" "A" 0).addPingResult 503 80 1000 cfg0).isTemporarilyStopped
        = false := by
  have h := addPingResult_downtime_lifecycle (mkWebsite "https://a.example" "A" 0)
    503 80 1000 cfg0 (by decide)
  have h1 := h.1 (by decide)
  exact ⟨h1.1, h1.2.2⟩

/-- C4 counterexample: the suspending transition does not clear
`stopPingUntil` — the suspended state still carries the (expired) deadline,
so `downtimeDeadline` is set while the site is suspended. -/
theorem suspension_keeps_stopPingUntil :
    siteAfterSuspension.isTemporarilyStopped = true ∧
    siteAfterSuspension.stopPingUntil = MField.val (1000 + cfg0.downtimeWindow) := by
  constructor <;> rfl

/-- C4 amended: a healthy result nulls `stopPingUntil` and both resume steps
null it, but an unhealthy result always leaves it set — in particular the
suspending transition keeps the expired deadline in place. -/
theorem stopPingUntil_clearing (w : Website) (sc dur now dl : Nat) (cfg : Config) :
    ((200 ≤ sc ∧ sc < 400) →
      (w.addPingResult sc dur now cfg).stopPingUntil = MField.null) ∧
    ((resumeStoppedWebsite w now cfg).stopPingUntil = MField.null) ∧
    ((resumeWebsiteStep w now).stopPingUntil = MField.null) ∧
    (¬ (200 ≤ sc ∧ sc < 400) → w.stopPingUntil = MField.val dl → dl ≤ now →
      (w.addPingResult sc dur now cfg).stopPingUntil = MField.val dl ∧
      (w.addPingResult sc dur now cfg).isTemporarilyStopped = true) ∧
    (¬ (200 ≤ sc ∧ sc < 400) →
      ((w.addPingResult sc dur now cfg).stopPingUntil).isSet = true) := by
  refine ⟨?_, rfl, rfl, ?_, ?_⟩
  · intro hup
    have hUp : (200 ≤ sc && sc < 400) = true := by
      simp [hup.1, hup.2]
    unfold Website.addPingResult
    dsimp only
    rw [hUp]
    simp
  · intro hsc hdl hge
    have hUp := addPingResult_isUp_false sc hsc
    unfold Website.addPingResult
    dsimp only
    rw [hUp, hdl]
    simp [Nat.not_lt.mpr hge, hdl]
  · intro hsc
    have hUp := addPingResult_isUp_false sc hsc
    unfold Website.addPingResult
    dsimp only
    rw [hUp]
    cases h : w.stopPingUntil with
    | val d => by_cases hlt : now < d <;> simp [hlt, MField.isSet]
    | absent => simp [MField.isSet]
    | null => simp [MField.isSet]

/-- C4 witness: healthy result clears the deadline; the suspending unhealthy
result keeps it. -/
theorem stopPingUntil_clearing_witness :
    (siteAfterSuspension.addPingResult 200 50 99999999 cfg0).stopPingUntil
        = MField.null ∧
    siteAfterSuspension.stopPingUntil.isSet = true := by
  have h := stopPingUntil_clearing siteAfterSuspension 200 50 99999999
    (1000 + cfg0.downtimeWindow) cfg0
  have h2 := stopPingUntil_clearing
    ((mkWebsite "https://a.example" "A" 0).addPingResult 0 100 1000 cfg0)
    0 100 (1000 + cfg0.downtimeWindow) (1000 + cfg0.downtimeWindow) cfg0
  refine ⟨h.1 (by decide), ?_⟩
  have := (h2.2.2.2.1 (by decide) (by rfl) (by decide)).1
  show siteAfterSuspension.stopPingUntil.isSet = true
  rw [siteAfterSuspension, this]
  rfl

/-- C5 counterexample: a due-for-resume site is resumed with
`nextPingTime = now + pingInterval`, not `now` as the claim states. -/
theorem resume_does_not_schedule_immediately :
    dueForResume stoppedSiteB 50 = true ∧
    (resumeStoppedWebsite stoppedSiteB 50 cfg0).nextPingTime ≠ MField.val 50 := by
  constructor
  · rfl
  · intro h
    simp [resumeStoppedWebsite, cfg0] at h

/-- C5 amended: the scheduler's resume step clears the stop flag, nulls
`stopPingUntil`, schedules the next check one normal interval after the
resume time, and leaves every other field (in particular
`consecutiveFailures`, `status`, the history — hence no probe — and the
alert flag — hence no event) unchanged. -/
theorem resumeStoppedWebsite_spec (w : Website) (now : Nat) (cfg : Config) :
    (resumeStoppedWebsite w now cfg).isTemporarilyStopped = false ∧
    (resumeStoppedWebsite w now cfg).nextPingTime
        = MField.val (now + cfg.pingInterval) ∧
    (resumeStoppedWebsite w now cfg).stopPingUntil = MField.null ∧
    (resumeStoppedWebsite w now cfg).consecutiveFailures = w.consecutiveFailures ∧
    (resumeStoppedWebsite w now cfg).status = w.status ∧
    (resumeStoppedWebsite w now cfg).emailNotificationSent
        = w.emailNotificationSent ∧
    (resumeStoppedWebsite w now cfg).pingHistory = w.pingHistory ∧
    (resumeStoppedWebsite w now cfg).lastChecked = w.lastChecked ∧
    (resumeStoppedWebsite w now cfg).url = w.url ∧
    (resumeStoppedWebsite w now cfg).name = w.name :=
  ⟨rfl, rfl, rfl, rfl, rfl, rfl, rfl, rfl, rfl, rfl⟩

set_option maxRecDepth 10000

/-- C7: after any append the history has at most `historyCap = 100` entries;
the retained entries are exactly the most recent ones, oldest first (the
appended list minus its oldest overflow prefix); the `pre('save')` cap also
never leaves more than 100 entries; and inserting 105 results into a fresh
site retains exactly the 100 most recent, oldest first. -/
theorem pingHistory_cap_invariant (w : Website) (sc dur now : Nat) (cfg : Config) :
    ((w.addPingResult sc dur now cfg).pingHistory.length ≤ 100) ∧
    ((w.addPingResult sc dur now cfg).pingHistory
        = (w.pingHistory ++ [PingEntry.mk now sc dur]).drop
            ((w.pingHistory ++ [PingEntry.mk now sc dur]).length - 100)) ∧
    (w.pingHistory.length ≤ 100 ∨ (preSaveCap w).pingHistory.length = 100) ∧
    ((preSaveCap w).pingHistory.length ≤ 100) ∧
    ((insertResults (mkWebsite "u" "n" 0)
        ((List.range 105).map fun i => (200, 10, i)) cfg0).pingHistory
      = ((List.range 105).map fun i => PingEntry.mk i 200 10).drop 5) := by
  refine ⟨?_, ?_, ?_, ?_, by decide⟩
  · rw [addPingResult_pingHistory, length_capPingHistory]
    omega
  · rw [addPingResult_pingHistory, capPingHistory_eq_drop]
  · unfold preSaveCap
    split
    · right
      dsimp only
      rw [List.length_drop]
      omega
    · next h => left; omega
  · unfold preSaveCap
    split
    · dsimp only
      rw [List.length_drop]
      omega
    · next h => omega

/-!  Lemmas about the alert gate in the failure path. -/

theorem pingFailure_alert_gate (w : Website) (dOk : Bool) (now dur : Nat)
    (cfg : Config) :
    (PingWorker.pingFailure w dOk now dur cfg).2.alertAttempted
        = (decide (3 ≤ w.consecutiveFailures + 1) && ! w.emailNotificationSent) := by
  unfold PingWorker.pingFailure
  dsimp only
  rw [addPingResult_consecutiveFailures, addPingResult_emailNotificationSent]
  dsimp only
  split
  · next h => rw [h]; split <;> rfl
  · next h =>
      simp only [Bool.not_eq_true] at h
      rw [h]

theorem pingFailure_flag (w : Website) (dOk : Bool) (now dur : Nat) (cfg : Config) :
    (PingWorker.pingFailure w dOk now dur cfg).1.emailNotificationSent
      = (w.emailNotificationSent ||
          ((PingWorker.pingFailure w dOk now dur cfg).2.alertAttempted && dOk)) := by
  rw [pingFailure_alert_gate]
  unfold PingWorker.pingFailure
  dsimp only
  rw [addPingResult_consecutiveFailures, addPingResult_emailNotificationSent]
  dsimp only
  split
  · next h =>
      rw [h]
      have hens : w.emailNotificationSent = false := by
        cases hw : w.emailNotificationSent
        · rfl
        · rw [hw] at h; simp at h
      split
      · next hd => subst hd; simp [hens]
      · next hd =>
          simp only [Bool.not_eq_true] at hd
          subst hd
          rw [addPingResult_emailNotificationSent]
          simp [hens]
  · next h =>
      simp only [Bool.not_eq_true] at h
      rw [h, addPingResult_emailNotificationSent]
      simp

theorem pingFailure_consecutiveFailures (w : Website) (dOk : Bool) (now dur : Nat)
    (cfg : Config) :
    (PingWorker.pingFailure w dOk now dur cfg).1.consecutiveFailures
      = w.consecutiveFailures + 1 := by
  unfold PingWorker.pingFailure
  dsimp only
  split
  · split <;> · dsimp only; rw [addPingResult_consecutiveFailures]
  · rw [addPingResult_consecutiveFailures]

theorem unhealthyRun_flagged (steps : List (Bool × Nat × Nat)) (w : Website)
    (cfg : Config) (h : w.emailNotificationSent = true) :
    (unhealthyRun w steps cfg).2 = 0 := by
  induction steps generalizing w with
  | nil => rfl
  | cons s rest ih =>
    obtain ⟨dOk, now, dur⟩ := s
    have hpf : PingWorker.pingWebsite w none dOk now dur cfg
        = PingWorker.pingFailure w dOk now dur cfg := rfl
    have hA : (PingWorker.pingWebsite w none dOk now dur cfg).2.alertAttempted
        = false := by
      rw [hpf, pingFailure_alert_gate, h]; simp
    have hF : (PingWorker.pingWebsite w none dOk now dur cfg).1.emailNotificationSent
        = true := by
      rw [hpf, pingFailure_flag, h]; simp
    unfold unhealthyRun
    dsimp only
    rw [hA, ih _ hF]
    simp

theorem unhealthyRun_atMostOne (steps : List (Bool × Nat × Nat)) (w : Website)
    (cfg : Config) (hall : ∀ s ∈ steps, s.1 = true) :
    (unhealthyRun w steps cfg).2 ≤ 1 := by
  induction steps generalizing w with
  | nil => simp [unhealthyRun]
  | cons s rest ih =>
    obtain ⟨dOk, now, dur⟩ := s
    have hd : dOk = true := hall _ (List.mem_cons_self _ _)
    subst hd
    have hpf : PingWorker.pingWebsite w none true now dur cfg
        = PingWorker.pingFailure w true now dur cfg := rfl
    unfold unhealthyRun
    dsimp only
    cases hA : (PingWorker.pingWebsite w none true now dur cfg).2.alertAttempted
    · have := ih ((PingWorker.pingWebsite w none true now dur cfg).1)
        (fun s hs => hall s (List.mem_cons_of_mem _ hs))
      have hz : (if false = true then (1:Nat) else 0) = 0 := rfl
      rw [hz]
      omega
    · have hF : (PingWorker.pingWebsite w none true now dur cfg).1.emailNotificationSent
          = true := by
        rw [hpf, pingFailure_flag]
        rw [hpf] at hA
        rw [hA]
        simp
      rw [unhealthyRun_flagged rest _ cfg hF]
      simp

/-- C2: on an unhealthy evaluation, a downtime alert is attempted exactly
when the incremented failure count reaches 3 and no alert was delivered for
the incident; the flag becomes true exactly when an attempt's delivery
succeeds; a failed delivery leaves the flag false and the next unhealthy
evaluation attempts again; and over any run of unhealthy evaluations with
successful deliveries at most one alert is attempted. -/
theorem downtime_alert_at_most_once (w : Website) (dOk dOk2 : Bool)
    (now dur now2 dur2 : Nat) (cfg : Config) (steps : List (Bool × Nat × Nat)) :
    ((PingWorker.pingWebsite w none dOk now dur cfg).2.alertAttempted
        = (decide (3 ≤ w.consecutiveFailures + 1) && ! w.emailNotificationSent)) ∧
    ((PingWorker.pingWebsite w none dOk now dur cfg).1.emailNotificationSent
        = (w.emailNotificationSent
            || ((PingWorker.pingWebsite w none dOk now dur cfg).2.alertAttempted
                 && dOk))) ∧
    ((PingWorker.pingWebsite w none dOk now dur cfg).2.alertAttempted = true →
      dOk = false →
      (PingWorker.pingWebsite w none dOk now dur cfg).1.emailNotificationSent
          = false ∧
      (PingWorker.pingWebsite (PingWorker.pingWebsite w none dOk now dur cfg).1
          none dOk2 now2 dur2 cfg).2.alertAttempted = true) ∧
    ((∀ s ∈ steps, s.1 = true) → (unhealthyRun w steps cfg).2 ≤ 1) := by
  have hpf : PingWorker.pingWebsite w none dOk now dur cfg
      = PingWorker.pingFailure w dOk now dur cfg := rfl
  refine ⟨?_, ?_, ?_, fun hall => unhealthyRun_atMostOne steps w cfg hall⟩
  · rw [hpf, pingFailure_alert_gate]
  · rw [hpf, pingFailure_flag]
  · intro hA hd
    subst hd
    rw [hpf] at hA ⊢
    have hens : w.emailNotificationSent = false := by
      rw [pingFailure_alert_gate] at hA
      cases hw : w.emailNotificationSent
      · rfl
      · rw [hw] at hA; simp at hA
    have hcf : 3 ≤ w.consecutiveFailures + 1 := by
      rw [pingFailure_alert_gate] at hA
      by_cases h3 : 3 ≤ w.consecutiveFailures + 1
      · exact h3
      · simp [h3] at hA
    have hF : (PingWorker.pingFailure w false now dur cfg).1.emailNotificationSent
        = false := by
      rw [pingFailure_flag, hens, hA]
      rfl
    refine ⟨hF, ?_⟩
    have hpf2 : PingWorker.pingWebsite (PingWorker.pingFailure w false now dur cfg).1
        none dOk2 now2 dur2 cfg
        = PingWorker.pingFailure (PingWorker.pingFailure w false now dur cfg).1
            dOk2 now2 dur2 cfg := rfl
    rw [hpf2, pingFailure_alert_gate, hF, pingFailure_consecutiveFailures]
    simp
    omega

/-- C2 witness: a site two failures deep with the flag clear attempts the
alert, a failed delivery leaves the flag clear, and the next unhealthy
evaluation attempts again; a three-step all-success run attempts at most
once. -/
theorem downtime_alert_at_most_once_witness :
    ({ mkWebsite "https://e.example" "E" 0 with consecutiveFailures := 2 }
        |> fun w =>
      (PingWorker.pingWebsite w none false 100 10 cfg0).1.emailNotificationSent
          = false ∧
      (PingWorker.pingWebsite (PingWorker.pingWebsite w none false 100 10 cfg0).1
          none true 200 10 cfg0).2.alertAttempted = true ∧
      (unhealthyRun w [(true, 100, 10), (true, 200, 10), (true, 300, 10)] cfg0).2
          ≤ 1) := by
  have h := downtime_alert_at_most_once
    ({ mkWebsite "https://e.example" "E" 0 with consecutiveFailures := 2 })
    false true 100 10 200 10 cfg0 [(true, 100, 10), (true, 200, 10), (true, 300, 10)]
  have h3 := h.2.2.1 (by decide) rfl
  exact ⟨h3.1, h3.2, h.2.2.2 (by decide)⟩

theorem classifyResponse_range (url : String) (sc : Nat) (text : String)
    (h : classifyResponse url sc text = true) : (200 ≤ sc && sc < 400) = true := by
  unfold classifyResponse at h
  split at h
  · assumption
  · exact absurd h (by simp)

theorem addPingResult_isUp_fields (w : Website) (sc dur now : Nat) (cfg : Config)
    (h : (200 ≤ sc && sc < 400) = true) :
    (w.addPingResult sc dur now cfg).status = SiteStatus.UP ∧
    (w.addPingResult sc dur now cfg).nextPingTime
        = MField.val (now + cfg.pingInterval) ∧
    (w.addPingResult sc dur now cfg).isTemporarilyStopped = false ∧
    (w.addPingResult sc dur now cfg).stopPingUntil = MField.null := by
  unfold Website.addPingResult
  dsimp only
  rw [h]
  simp

/-- C3: a healthy evaluation resets `consecutiveFailures` to 0, sets status
UP, reschedules one normal interval ahead, attempts no alert, and sends a
recovery notification exactly when the prior failure count was at least 3;
the trace healthy, three unhealthy, healthy attempts exactly one alert
(after the third unhealthy result) and sends exactly one recovery notice
(after the final healthy result), ending with zero consecutive failures. -/
theorem healthy_result_resets_and_recovers (w : Website) (sc : Nat)
    (text : String) (dOk : Bool) (now dur : Nat) (cfg : Config)
    (h : classifyResponse w.url sc text = true) :
    ((PingWorker.pingWebsite w (some (sc, text)) dOk now dur cfg).1.consecutiveFailures
        = 0) ∧
    ((PingWorker.pingWebsite w (some (sc, text)) dOk now dur cfg).1.status
        = SiteStatus.UP) ∧
    ((PingWorker.pingWebsite w (some (sc, text)) dOk now dur cfg).1.nextPingTime
        = MField.val (now + cfg.pingInterval)) ∧
    ((PingWorker.pingWebsite w (some (sc, text)) dOk now dur cfg).2.recoverySent
        = decide (3 ≤ w.consecutiveFailures)) ∧
    ((PingWorker.pingWebsite w (some (sc, text)) dOk now dur cfg).2.alertAttempted
        = false) ∧
    (c3r1.2 = PingEvents.mk false false ∧ c3r2.2 = PingEvents.mk false false ∧
     c3r3.2 = PingEvents.mk false false ∧ c3r4.2 = PingEvents.mk true false ∧
     c3r5.2 = PingEvents.mk false true ∧ c3r5.1.consecutiveFailures = 0) := by
  have hrange := classifyResponse_range w.url sc text h
  have hstep : PingWorker.pingWebsite w (some (sc, text)) dOk now dur cfg
      = (({ w with consecutiveFailures := 0, emailNotificationSent := false
              : Website }).addPingResult sc dur now cfg,
         PingEvents.mk false (decide (3 ≤ w.consecutiveFailures))) := by
    unfold PingWorker.pingWebsite
    dsimp only
    rw [if_pos h]
  rw [hstep]
  have hfields := addPingResult_isUp_fields
    ({ w with consecutiveFailures := 0, emailNotificationSent := false : Website })
    sc dur now cfg hrange
  refine ⟨?_, hfields.1, hfields.2.1, rfl, rfl, by decide⟩
  rw [addPingResult_consecutiveFailures]

/-- C3 witness: a healthy 200 on a previously failing plain site yields UP,
zero failures and a recovery notice. -/
theorem healthy_result_resets_and_recovers_witness :
    ((PingWorker.pingWebsite
        ({ mkWebsite "https://f.example" "F" 0 with consecutiveFailures := 4 })
        (some (200, "hello")) true 900 30 cfg0).1.status = SiteStatus.UP) ∧
    ((PingWorker.pingWebsite
        ({ mkWebsite "https://f.example" "F" 0 with consecutiveFailures := 4 })
        (some (200, "hello")) true 900 30 cfg0).2.recoverySent = true) := by
  have h := healthy_result_resets_and_recovers
    ({ mkWebsite "https://f.example" "F" 0 with consecutiveFailures := 4 })
    200 "hello" true 900 30 cfg0 (by decide)
  refine ⟨h.2.1, ?_⟩
  rw [h.2.2.2.1]
  rfl

/-- C6 counterexample: a health-endpoint URL returning HTTP 200 with a body
containing no positive token still classifies healthy, and the site's status
becomes UP, because the classifier accepts every [200,300) status outright. -/
theorem health_endpoint_tokenless_200_is_healthy :
    classifyResponse "https://d.example/health" 200 "database error" = true ∧
    (PingWorker.pingWebsite healthSiteD (some (200, "database error"))
        true 5 30 cfg0).1.status = SiteStatus.UP := by
  constructor
  · decide
  · decide

/-- C6 amended: for non-health URLs any [200,400) status is healthy; for
health/status URLs every [200,300) status is healthy regardless of the body,
and the positive-token requirement bites only for [300,400) statuses, which
classify unhealthy when the lowercased body contains none of the tokens;
every unhealthy evaluation drives the site's status to DOWN. -/
theorem classifyResponse_spec (url : String) (sc : Nat) (text : String) :
    (¬ (jsIncludes url "/health" = true ∨ jsIncludes url "/status" = true) →
      classifyResponse url sc text = (200 ≤ sc && sc < 400)) ∧
    ((jsIncludes url "/health" = true ∨ jsIncludes url "/status" = true) →
      200 ≤ sc → sc < 300 → classifyResponse url sc text = true) ∧
    ((jsIncludes url "/health" = true ∨ jsIncludes url "/status" = true) →
      300 ≤ sc → sc < 400 →
      jsIncludes (lowerStr text) "ok" = false →
      jsIncludes (lowerStr text) "success" = false →
      jsIncludes (lowerStr text) "healthy" = false →
      jsIncludes (lowerStr text) "up" = false →
      classifyResponse url sc text = false) ∧
    (∀ (w : Website) (dOk : Bool) (now dur : Nat) (cfg : Config),
      (PingWorker.pingFailure w dOk now dur cfg).1.status = SiteStatus.DOWN) := by
  refine ⟨?_, ?_, ?_, ?_⟩
  · intro hnot
    unfold classifyResponse
    have hh : (jsIncludes url "/health" || jsIncludes url "/status") = false := by
      cases h1 : jsIncludes url "/health"
      · cases h2 : jsIncludes url "/status"
        · rfl
        · exact absurd (Or.inr h2) hnot
      · exact absurd (Or.inl h1) hnot
    rw [hh]
    split
    · simp
    · next hr =>
        simp only [Bool.not_eq_true] at hr
        rw [hr]
  · intro hurl h2 h3
    have hrange : (200 ≤ sc && sc < 400) = true := by
      simp [h2]; omega
    have hlow : (200 ≤ sc && sc < 300) = true := by
      simp [h2, h3]
    have hh : (jsIncludes url "/health" || jsIncludes url "/status") = true := by
      rcases hurl with h | h <;> simp [h]
    unfold classifyResponse
    rw [hrange, hh]
    simp [hlow]
  · intro hurl h3 h4 t1 t2 t3 t4
    have hrange : (200 ≤ sc && sc < 400) = true := by
      simp [h4]; omega
    have hlow : (200 ≤ sc && sc < 300) = false := by
      simp; omega
    have hh : (jsIncludes url "/health" || jsIncludes url "/status") = true := by
      rcases hurl with h | h <;> simp [h]
    unfold classifyResponse
    rw [hrange, hh]
    simp [t1, t2, t3, t4, hlow]
  · intro w dOk now dur cfg
    unfold PingWorker.pingFailure
    dsimp only
    have hdown : (({ w with consecutiveFailures := w.consecutiveFailures + 1
        : Website }).addPingResult 0 dur now cfg).status = SiteStatus.DOWN := by
      unfold Website.addPingResult
      dsimp only
      cases h : ({ w with consecutiveFailures := w.consecutiveFailures + 1
          : Website }).stopPingUntil
      · simp
      · simp
      · next d => by_cases hlt : now < d <;> simp [hlt]
    split
    · split <;> · dsimp only; exact hdown
    · exact hdown

/-- C6 witness for the amended claim: a tokenless 301 on a health endpoint is
unhealthy; a tokenless 200 on a plain URL is healthy. -/
theorem classifyResponse_spec_witness :
    classifyResponse "https://d.example/health" 301 "database error" = false ∧
    classifyResponse "https://plain.example/page" 200 "database error" = true := by
  have h1 := classifyResponse_spec "https://d.example/health" 301 "database error"
  have h2 := classifyResponse_spec "https://plain.example/page" 200 "database error"
  constructor
  · exact h1.2.2.1 (Or.inl (by decide)) (by decide) (by decide)
      (by decide) (by decide) (by decide) (by decide)
  · rw [h2.1 (by decide)]
    decide

/-- C8: the single-flight guard — a cycle invoked while another is running
returns unchanged with zero probes, whatever the due-set query would say;
a cycle that does run lowers the running flag on completion, on the error
path as well as the success path; and a run over `jobs` executes exactly
one probe per due site. -/
theorem runPingCycle_single_flight (wk : WorkerState)
    (query : Except String (List PingJob)) (jobs : List PingJob) (cfg : Config) :
    (wk.isRunning = true → runPingCycle wk query cfg = (wk, 0)) ∧
    (wk.isRunning = false → (runPingCycle wk query cfg).1.isRunning = false) ∧
    (wk.isRunning = false →
      (runPingCycle wk (Except.ok jobs) cfg).2 = jobs.length) := by
  refine ⟨?_, ?_, ?_⟩
  · intro h
    unfold runPingCycle
    rw [h]
    rfl
  · intro h
    unfold runPingCycle
    rw [h]
    cases query <;> rfl
  · intro h
    unfold runPingCycle
    rw [h]
    dsimp only
    rw [processDueSites, List.length_map]
    rfl

/-- C8 witness: with an idle worker, one invocation on three jobs executes
three probes, and an in-flight worker ignores any query. -/
theorem runPingCycle_single_flight_witness :
    (runPingCycle (WorkerState.mk true 7) (Except.ok []) cfg0
        = (WorkerState.mk true 7, 0)) ∧
    ((runPingCycle (WorkerState.mk false 7) (Except.error "db down") cfg0).1.isRunning
        = false) := by
  have h1 := runPingCycle_single_flight (WorkerState.mk true 7)
    (Except.ok []) [] cfg0
  have h2 := runPingCycle_single_flight (WorkerState.mk false 7)
    (Except.error "db down") [] cfg0
  exact ⟨h1.1 rfl, h2.2.1 rfl⟩

theorem getLast?_capPingHistory (l : List PingEntry) (e : PingEntry) :
    (capPingHistory (l ++ [e])).getLast? = some e := by
  rw [capPingHistory_eq_drop]
  have hk : (l ++ [e]).length - 100 ≤ l.length := by
    rw [List.length_append]
    simp
  rw [List.drop_append_of_le_length hk]
  rw [List.getLast?_append_of_ne_nil _ (by simp)]
  rfl

theorem pingFailure_pingHistory (w : Website) (dOk : Bool) (now dur : Nat)
    (cfg : Config) :
    (PingWorker.pingFailure w dOk now dur cfg).1.pingHistory
      = capPingHistory (w.pingHistory ++ [PingEntry.mk now 0 dur]) := by
  unfold PingWorker.pingFailure
  dsimp only
  split
  · split <;> · dsimp only; rw [addPingResult_pingHistory]
  · rw [addPingResult_pingHistory]

/-- C9: the cycle loop processes every due site — each job in the list yields
exactly the result of its own `pingWebsite` call, with sites before and after
a given job unaffected by it — and a failed probe (thrown navigation) is
recorded in that site's history as a final entry with statusCode 0 and the
elapsed duration, while the site goes DOWN; no failure escapes the per-probe
catch block. -/
theorem probe_failure_is_isolated (jobs pre post : List PingJob) (j : PingJob)
    (w : Website) (dOk : Bool) (now dur : Nat) (cfg : Config) :
    ((processDueSites jobs cfg).length = jobs.length) ∧
    (processDueSites (pre ++ j :: post) cfg
        = processDueSites pre cfg ++
            PingWorker.pingWebsite j.site j.probe j.deliveryOk j.now j.duration cfg ::
            processDueSites post cfg) ∧
    ((PingWorker.pingWebsite w none dOk now dur cfg).1.pingHistory.getLast?
        = some (PingEntry.mk now 0 dur)) ∧
    ((PingWorker.pingWebsite w none dOk now dur cfg).1.status = SiteStatus.DOWN) := by
  have hpf : PingWorker.pingWebsite w none dOk now dur cfg
      = PingWorker.pingFailure w dOk now dur cfg := rfl
  refine ⟨?_, ?_, ?_, ?_⟩
  · rw [processDueSites, List.length_map]
  · rw [processDueSites, processDueSites, processDueSites, List.map_append,
      List.map_cons]
  · rw [hpf, pingFailure_pingHistory, getLast?_capPingHistory]
  · rw [hpf]
    exact (classifyResponse_spec "" 0 "").2.2.2 w dOk now dur cfg

/-- C10: a manually paused site (stop flag raised, `stopPingUntil` stored as
null) matches neither the auto-resume query (null matches neither `$lte` nor
`$exists: false`) nor the due-for-check query, so any number of scheduler
ticks leaves it unchanged and still suspended. -/
theorem paused_site_stays_suspended (w : Website) (now : Nat)
    (ticks : List TickInput) (cfg : Config) :
    ((pauseWebsiteStep w).stopPingUntil = MField.null) ∧
    (dueForResume (pauseWebsiteStep w) now = false) ∧
    (dueForCheck (pauseWebsiteStep w) now = false) ∧
    (tickSiteMany (pauseWebsiteStep w) ticks cfg = pauseWebsiteStep w) ∧
    ((tickSiteMany (pauseWebsiteStep w) ticks cfg).isTemporarilyStopped = true) := by
  have hres : ∀ t, dueForResume (pauseWebsiteStep w) t = false := by
    intro t
    rw [dueForResume]
    rfl
  have hchk : ∀ t, dueForCheck (pauseWebsiteStep w) t = false := by
    intro t
    rw [dueForCheck]
    simp [pauseWebsiteStep]
  have hfix : tickSiteMany (pauseWebsiteStep w) ticks cfg = pauseWebsiteStep w := by
    induction ticks with
    | nil => rfl
    | cons t rest ih =>
      rw [tickSiteMany, tickSite, hchk, hres]
      simp only [Bool.false_eq_true, if_false]
      exact ih
  refine ⟨rfl, hres now, hchk now, hfix, ?_⟩
  rw [hfix]
  rfl

